import Mathlib

/-!
Verification of the consul agent config HTTP endpoint
(`agent/config_endpoint.go`).

The endpoint dispatches on the HTTP method, splits the URL path after the
fixed route `/v1/config/` on the first slash, decodes JSON request bodies
into typed configuration entries via a kind discriminator, and issues a
single opaque backend RPC per operation.  The Go source of the endpoint is
translated directly; collaborators that live outside the excerpt
(`structs.MakeConfigEntry`, the mapstructure coercion with its duration
hooks, the generic `decodeBody` JSON step) are modelled from the design
document and marked as such in their doc comments.
-/

set_option autoImplicit false

namespace ConfigEndpoint

/-- Raw JSON-like value appearing in a decoded request payload
(the `interface\x7b\x7d` values of the Go `map[string]interface\x7b\x7d`). -/
inductive RawVal where
  | str (s : String)
  | num (n : Int)
  | boolean (b : Bool)
  deriving DecidableEq, Repr

/-- A raw payload: an untyped mapping from string keys to raw values,
the result of JSON-decoding a request body. -/
abbrev RawMapping := List (String × RawVal)

/-- Field types a registered kind may declare.  Modelled from the spec:
the concrete entry structs live in the `structs` package, outside the
excerpt; the design document distinguishes plain string fields from
duration-typed fields with their special coercion rule. -/
inductive FieldType where
  | str
  | dur
  deriving DecidableEq, Repr

/-- A typed field value: a string, or a duration held as a count of
nanoseconds. -/
inductive FieldVal where
  | str (s : String)
  | dur (ns : Int)
  deriving DecidableEq, Repr

/-- The type of a typed field value. -/
def FieldVal.type : FieldVal → FieldType
  | .str _ => .str
  | .dur _ => .dur

/-- Zero value of a field type, as produced by a fresh entry constructor. -/
def zeroVal : FieldType → FieldVal
  | .str => .str ""
  | .dur => .dur 0

/-- Schema of one registered kind: its kind string and its named fields.
Modelled from the spec: each kind has its own closed field set. -/
structure KindSchema where
  kind : String
  fields : List (String × FieldType)
  deriving DecidableEq, Repr

/-- The Kind Registry: a closed enumeration of kind schemas.  Modelled from
the spec: a pure lookup table mapping a kind identifier to a constructor. -/
abbrev Registry := List KindSchema

/-- A typed configuration entry: a kind, a name unique within the kind, and
the typed fields of that kind. -/
structure TypedEntry where
  kind : String
  name : String
  fields : List (String × FieldVal)
  deriving DecidableEq, Repr

/-- Field shape of a typed entry: its field names with their types. -/
def TypedEntry.shape (e : TypedEntry) : List (String × FieldType) :=
  e.fields.map (fun fv => (fv.1, fv.2.type))

/-- Classified errors of the endpoint core. -/
inductive ConfigError where
  | missingKind
  | invalidKindType
  | unknownKind (kind : String)
  | decodeMismatch (key : String)
  | eof
  | jsonMalformed (msg : String)
  deriving DecidableEq, Repr

/-- Human-readable message of an error.  The missing-kind and
invalid-kind-type texts are verbatim from the source; the unknown-kind and
mismatch texts belong to collaborators outside the excerpt and are
modelled from the spec. -/
def ConfigError.message : ConfigError → String
  | .missingKind => "Payload does not contain a kind/Kind key at the top level"
  | .invalidKindType => "Kind value in payload is not a string"
  | .unknownKind k => "unknown config entry kind: " ++ k
  | .decodeMismatch key => "cannot decode value for key: " ++ key
  | .eof => "EOF"
  | .jsonMalformed m => m

/-- Exact string lookup of a key in a raw mapping (Go map indexing). -/
def lookupVal : RawMapping → String → Option RawVal
  | [], _ => none
  | (k, v) :: rest, key => if k == key then some v else lookupVal rest key

/-- ASCII lower-casing of one character. -/
def charLower (c : Char) : Char :=
  if 'A' ≤ c ∧ c ≤ 'Z' then Char.ofNat (c.toNat + 32) else c

/-- Case-insensitive string comparison, as Go `strings.EqualFold`
restricted to ASCII; mapstructure matches raw keys to field names with it. -/
def equalFold (a b : String) : Bool :=
  a.toList.map charLower == b.toList.map charLower

/-- Lookup of a kind schema by exact kind string, as the Kind Registry
switch.  Modelled from the spec: kind matching is exact-string. -/
def findSchema (reg : Registry) (kind : String) : Option KindSchema :=
  reg.find? (fun sch => sch.kind == kind)

/-- Modelled from the spec: `structs.MakeConfigEntry` (the Kind Registry,
outside the excerpt).  Given a kind string and a name, returns a fresh
zero-valued typed entry of that kind pre-populated with the name if the
kind is registered, and the unknown-kind error otherwise. -/
def MakeConfigEntry (reg : Registry) (kind name : String) :
    Except ConfigError TypedEntry :=
  match findSchema reg kind with
  | some sch =>
    .ok { kind := kind, name := name,
          fields := sch.fields.map (fun ft => (ft.1, zeroVal ft.2)) }
  | none => .error (.unknownKind kind)

/-- Numeric value of a run of decimal digits. -/
def digitsVal (ds : List Char) : Nat :=
  ds.foldl (fun n c => 10 * n + (c.toNat - 48)) 0

/-- Read a non-empty run of decimal digits from the front of a character
list, returning its value and the remainder. -/
def readNat (cs : List Char) : Option (Nat × List Char) :=
  let ds := cs.takeWhile (fun c => c.isDigit)
  if ds.isEmpty then none
  else some (digitsVal ds, cs.dropWhile (fun c => c.isDigit))

/-- Nanoseconds per duration unit, read from the front of a character
list.  Units of the standard duration grammar: ns, us, µs, ms, s, m, h. -/
def durUnitNs : List Char → Option (Int × List Char)
  | 'n' :: 's' :: rest => some (1, rest)
  | 'u' :: 's' :: rest => some (1000, rest)
  | 'µ' :: 's' :: rest => some (1000, rest)
  | 'm' :: 's' :: rest => some (1000000, rest)
  | 'm' :: rest => some (60000000000, rest)
  | 's' :: rest => some (1000000000, rest)
  | 'h' :: rest => some (3600000000000, rest)
  | _ => none

/-- Sum a sequence of digit-run/unit segments; the fuel bounds the number
of segments and is decremented once per segment. -/
def parseDurAux : Nat → List Char → Option Int
  | _, [] => some 0
  | 0, _ :: _ => none
  | fuel + 1, c :: cs =>
    match readNat (c :: cs) with
    | none => none
    | some (n, rest) =>
      match durUnitNs rest with
      | none => none
      | some (u, rest2) =>
        match parseDurAux fuel rest2 with
        | none => none
        | some acc => some ((n : Int) * u + acc)

/-- Modelled from the spec: the human-readable duration grammar used by
the decode hooks (`mapstructure.StringToTimeDurationHookFunc` and
`stringToReadableDurationFunc`, outside the excerpt): one or more
digit-run/unit-suffix segments, summed, yielding nanoseconds. -/
def parseDuration (s : String) : Option Int :=
  if s.toList.isEmpty then none else parseDurAux s.toList.length s.toList

/-- Modelled from the spec: coercion of one raw value onto a typed field.
A string field takes a string value verbatim; a duration field takes a
numeric value verbatim as nanoseconds or a string parsed by the duration
grammar; anything else is a mismatch carrying the offending key. -/
def coerceInto (key : String) (cur : FieldVal) (v : RawVal) :
    Except ConfigError FieldVal :=
  match cur, v with
  | .str _, .str s => .ok (.str s)
  | .str _, _ => .error (.decodeMismatch key)
  | .dur _, .num n => .ok (.dur n)
  | .dur _, .str s =>
    match parseDuration s with
    | some ns => .ok (.dur ns)
    | none => .error (.decodeMismatch key)
  | .dur _, _ => .error (.decodeMismatch key)

/-- Modelled from the spec: set the field whose name matches the raw key
case-insensitively; a key matching no field is ignored. -/
def setFields : List (String × FieldVal) → String → RawVal →
    Except ConfigError (List (String × FieldVal))
  | [], _, _ => .ok []
  | (f, cur) :: rest, key, v =>
    if equalFold f key then
      match coerceInto key cur v with
      | .ok v2 => .ok ((f, v2) :: rest)
      | .error e => .error e
    else
      match setFields rest key v with
      | .ok rest2 => .ok ((f, cur) :: rest2)
      | .error e => .error e

/-- Modelled from the spec: coerce one raw key/value onto the typed entry.
The `Kind` and `Name` string fields every entry carries are matched
case-insensitively like the rest. -/
def setField (e : TypedEntry) (key : String) (v : RawVal) :
    Except ConfigError TypedEntry :=
  if equalFold key "kind" then
    match v with
    | .str s => .ok { e with kind := s }
    | _ => .error (.decodeMismatch key)
  else if equalFold key "name" then
    match v with
    | .str s => .ok { e with name := s }
    | _ => .error (.decodeMismatch key)
  else
    match setFields e.fields key v with
    | .ok fs => .ok { e with fields := fs }
    | .error e2 => .error e2

/-- Modelled from the spec: the mapstructure decode step — coerce every
key of the raw mapping onto the entry in order, stopping at the first
failure. -/
def applyRaw (e : TypedEntry) : RawMapping → Except ConfigError TypedEntry
  | [] => .ok e
  | (k, v) :: rest =>
    match setField e k v with
    | .ok e2 => applyRaw e2 rest
    | .error err => .error err

/-- Discriminator lookup of `decodeConfigEntry`: the key `Kind` is tried
first, the key `kind` only if `Kind` is absent. -/
def kindDiscriminator (raw : RawMapping) : Option RawVal :=
  match lookupVal raw "Kind" with
  | some v => some v
  | none => lookupVal raw "kind"

/-- Translation of `decodeConfigEntry`: resolve the discriminator, build a
fresh entry through the Kind Registry, then coerce the raw mapping onto
it. -/
def decodeConfigEntry (reg : Registry) (raw : RawMapping) :
    Except ConfigError TypedEntry :=
  match kindDiscriminator raw with
  | none => .error .missingKind
  | some (RawVal.str kindStr) =>
    match MakeConfigEntry reg kindStr "" with
    | .error e => .error e
    | .ok entry => applyRaw entry raw
  | some _ => .error .invalidKindType

/-- Translation of `decodeConfigBody`: a nil body yields the EOF error; a
body whose JSON decoding fails yields that error; otherwise the same
pipeline as `decodeConfigEntry`, duplicated as in the source.  The body is
modelled as the outcome of the JSON decode step (absent, failed, or a raw
mapping). -/
def decodeConfigBody (reg : Registry)
    (body : Option (Except ConfigError RawMapping)) :
    Except ConfigError TypedEntry :=
  match body with
  | none => .error .eof
  | some (.error e) => .error e
  | some (.ok raw) =>
    match kindDiscriminator raw with
    | none => .error .missingKind
    | some (RawVal.str kindStr) =>
      match MakeConfigEntry reg kindStr "" with
      | .error e => .error e
      | .ok entry => applyRaw entry raw
    | some _ => .error .invalidKindType

/-- Modelled from the spec and the source comment: JSON decoding from an
empty reader yields the EOF error, the same outcome the nil-body guard
produces. -/
def emptyReaderBody : Option (Except ConfigError RawMapping) :=
  some (.error .eof)

/-- Go `strings.TrimPrefix`: drop the route part when it leads the path,
otherwise return the path unchanged. -/
def dropPre : List Char → List Char → Option (List Char)
  | [], cs => some cs
  | _ :: _, [] => none
  | p :: ps, c :: cs => if p = c then dropPre ps cs else none

/-- The path suffix after the fixed route `/v1/config/`, as computed by
`strings.TrimPrefix(req.URL.Path, "/v1/config/")`. -/
def pathSuffix (urlPath : String) : String :=
  match dropPre "/v1/config/".toList urlPath.toList with
  | some rest => String.mk rest
  | none => urlPath

/-- Split a character list at the first slash, if any. -/
def breakSlash : List Char → Option (List Char × List Char)
  | [] => none
  | c :: cs =>
    if c = '/' then some ([], cs)
    else
      match breakSlash cs with
      | none => none
      | some (a, b) => some (c :: a, b)

/-- Go `strings.SplitN(s, "/", 2)`: one segment when the string holds no
slash (also for the empty string), otherwise the part before the first
slash and the untouched remainder. -/
def splitN2 (s : String) : List String :=
  match breakSlash s.toList with
  | none => [s]
  | some (a, b) => [String.mk a, String.mk b]

/-- One opaque backend RPC of the endpoint. -/
inductive BackendCall where
  | get (kind name : String)
  | list (kind : String)
  | deleteCall (entry : TypedEntry)
  | applyUpsert (entry : TypedEntry)
  deriving DecidableEq, Repr

/-- Outcome of the Get handler. -/
inductive GetResult where
  | rpcGet (kind name : String)
  | rpcList (kind : String)
  | badRequest (msg : String)
  deriving DecidableEq, Repr

/-- Backend RPCs a Get outcome issues. -/
def GetResult.backendCalls : GetResult → List BackendCall
  | .rpcGet k n => [.get k n]
  | .rpcList k => [.list k]
  | .badRequest _ => []

/-- Outcome of the Delete handler. -/
inductive DeleteResult where
  | rpcDelete (entry : TypedEntry)
  | badRequest (msg : String)
  deriving DecidableEq, Repr

/-- Backend RPCs a Delete outcome issues. -/
def DeleteResult.backendCalls : DeleteResult → List BackendCall
  | .rpcDelete e => [.deleteCall e]
  | .badRequest _ => []

/-- Outcome of the Apply handler. -/
inductive ApplyResult where
  | rpcApply (entry : TypedEntry)
  | badRequest (msg : String)
  deriving DecidableEq, Repr

/-- Backend RPCs an Apply outcome issues; the RPC carries the Upsert
operation. -/
def ApplyResult.backendCalls : ApplyResult → List BackendCall
  | .rpcApply e => [.applyUpsert e]
  | .badRequest _ => []

/-- Translation of `configGet`: split the path suffix on the first slash;
two segments issue `ConfigEntry.Get`, one segment issues
`ConfigEntry.List`, and the remaining switch branch answers BadRequest.
The datacenter/query-option parsing is an opaque collaborator and carries
no information the dispatch depends on. -/
def configGet (urlPath : String) : GetResult :=
  match splitN2 (pathSuffix urlPath) with
  | [kind, name] => .rpcGet kind name
  | [kind] => .rpcList kind
  | _ => .badRequest "Must provide either a kind or both kind and name"

/-- Translation of `configDelete`: anything but exactly two segments
answers BadRequest; otherwise the entry is built through the Kind
Registry, a registry failure answers BadRequest with the message of the
error, and success issues `ConfigEntry.Delete`. -/
def configDelete (reg : Registry) (urlPath : String) : DeleteResult :=
  match splitN2 (pathSuffix urlPath) with
  | [kind, name] =>
    match MakeConfigEntry reg kind name with
    | .ok entry => .rpcDelete entry
    | .error err => .badRequest err.message
  | _ => .badRequest "Must provide both a kind and name to delete"

/-- Outcome of the method dispatcher. -/
inductive ConfigResult where
  | getRes (r : GetResult)
  | deleteRes (r : DeleteResult)
  | methodNotAllowed (method : String) (allowed : List String)
  deriving DecidableEq, Repr

/-- Translation of `Config`: the method switch routes GET and DELETE and
answers MethodNotAllowed with the allowed list for any other verb. -/
def Config (reg : Registry) (method urlPath : String) : ConfigResult :=
  if method = "GET" then .getRes (configGet urlPath)
  else if method = "DELETE" then .deleteRes (configDelete reg urlPath)
  else .methodNotAllowed method ["GET", "DELETE"]

/-- Translation of `ConfigApply`: the body is JSON-decoded into a raw
mapping by the generic `decodeBody` collaborator (its outcome is the
input here); a failure answers BadRequest wrapping the error, a decode
failure answers BadRequest wrapping the decode error, and success issues
`ConfigEntry.Apply` with the Upsert operation. -/
def ConfigApply (reg : Registry) (body : Except ConfigError RawMapping) :
    ApplyResult :=
  match body with
  | .error e => .badRequest ("Request decoding failed: " ++ e.message)
  | .ok raw =>
    match decodeConfigEntry reg raw with
    | .ok entry => .rpcApply entry
    | .error e => .badRequest ("Request decoding failed: " ++ e.message)

/-- A concrete registry used by witnesses and counterexamples: an
instantiation of the Kind Registry with the two kinds of the repository
(service defaults with a string protocol and a duration timeout, proxy
defaults with a string mode).  Modelled from the spec: the registry
contents live outside the excerpt. -/
def sampleRegistry : Registry :=
  [ { kind := "service-defaults",
      fields := [("Protocol", FieldType.str), ("ConnectTimeout", FieldType.dur)] },
    { kind := "proxy-defaults",
      fields := [("Mode", FieldType.str)] } ]

/-- The split of a path suffix always has one or two segments. -/
lemma splitN2_length (s : String) :
    (splitN2 s).length = 1 ∨ (splitN2 s).length = 2 := by
  unfold splitN2
  cases breakSlash s.toList with
  | none => left; rfl
  | some ab => obtain ⟨a, b⟩ := ab; right; rfl

/-- A key absent from an appended mapping is absent from both parts. -/
lemma lookupVal_append_none {xs ys : RawMapping} {key : String}
    (h : lookupVal (xs ++ ys) key = none) :
    lookupVal xs key = none ∧ lookupVal ys key = none := by
  induction xs with
  | nil => exact ⟨rfl, h⟩
  | cons p t ih =>
    obtain ⟨a, b⟩ := p
    cases hab : (a == key) with
    | true => simp [lookupVal, hab] at h
    | false =>
      simp only [List.cons_append, lookupVal, hab, if_false] at h ⊢
      simpa using ih h

/-- Lookup skips a part of the mapping that lacks the key. -/
lemma lookupVal_append_left_none {xs : RawMapping} {key : String}
    (h : lookupVal xs key = none) (ys : RawMapping) :
    lookupVal (xs ++ ys) key = lookupVal ys key := by
  induction xs with
  | nil => rfl
  | cons p t ih =>
    obtain ⟨a, b⟩ := p
    cases hab : (a == key) with
    | true => simp [lookupVal, hab] at h
    | false =>
      simp only [lookupVal, hab, if_false] at h
      simp only [List.cons_append, lookupVal, hab, if_false]
      exact ih h

/-- Coercion on an appended mapping runs the first part, then the second. -/
lemma applyRaw_append (xs ys : RawMapping) (e : TypedEntry) :
    applyRaw e (xs ++ ys) =
      match applyRaw e xs with
      | .ok e2 => applyRaw e2 ys
      | .error err => Except.error err := by
  induction xs generalizing e with
  | nil => rfl
  | cons p t ih =>
    obtain ⟨k, v⟩ := p
    cases hs : setField e k v with
    | ok e2 => simp [applyRaw, hs, ih]
    | error err => simp [applyRaw, hs]

/-- The zero value of a field type has that type. -/
lemma zeroVal_type (t : FieldType) : (zeroVal t).type = t := by
  cases t <;> rfl

/-- A fresh zero-valued entry has exactly the shape of its schema. -/
lemma shape_mk_zero (k n : String) (fs : List (String × FieldType)) :
    TypedEntry.shape ⟨k, n, fs.map (fun ft => (ft.1, zeroVal ft.2))⟩ = fs := by
  simp only [TypedEntry.shape, List.map_map]
  induction fs with
  | nil => rfl
  | cons p t ih =>
    obtain ⟨a, ty⟩ := p
    simp [Function.comp, zeroVal_type] at ih ⊢
    exact ih

/-- Coercion of a raw value either succeeds preserving the field type or
fails with the mismatch error carrying the key. -/
lemma coerceInto_cases (key : String) (cur : FieldVal) (v : RawVal) :
    (∃ v2, coerceInto key cur v = .ok v2 ∧ v2.type = cur.type) ∨
    coerceInto key cur v = .error (.decodeMismatch key) := by
  cases cur with
  | str s0 =>
    cases v with
    | str s => exact .inl ⟨.str s, rfl, rfl⟩
    | num n => exact .inr rfl
    | boolean b => exact .inr rfl
  | dur d0 =>
    cases v with
    | str s =>
      cases hp : parseDuration s with
      | some ns => exact .inl ⟨.dur ns, by simp [coerceInto, hp], rfl⟩
      | none => right; simp [coerceInto, hp]
    | num n => exact .inl ⟨.dur n, rfl, rfl⟩
    | boolean b => exact .inr rfl

/-- Setting one field either succeeds preserving names and types or fails
with the mismatch error carrying the key. -/
lemma setFields_cases (fs : List (String × FieldVal)) (key : String) (v : RawVal) :
    (∃ fs2, setFields fs key v = .ok fs2 ∧
      fs2.map (fun fv => (fv.1, fv.2.type)) = fs.map (fun fv => (fv.1, fv.2.type))) ∨
    setFields fs key v = .error (.decodeMismatch key) := by
  induction fs with
  | nil => exact .inl ⟨[], rfl, rfl⟩
  | cons p t ih =>
    obtain ⟨f, cur⟩ := p
    cases hef : equalFold f key with
    | true =>
      rcases coerceInto_cases key cur v with ⟨v2, hc, ht⟩ | hc
      · exact .inl ⟨(f, v2) :: t, by simp [setFields, hef, hc], by simp [ht]⟩
      · right; simp [setFields, hef, hc]
    | false =>
      rcases ih with ⟨t2, hst, hsh⟩ | hst
      · exact .inl ⟨(f, cur) :: t2, by simp [setFields, hef, hst], by simp [hsh]⟩
      · right; simp [setFields, hef, hst]

/-- Applying one raw key either succeeds preserving the entry shape or
fails with the mismatch error carrying the key. -/
lemma setField_cases (e : TypedEntry) (key : String) (v : RawVal) :
    (∃ e2, setField e key v = .ok e2 ∧ e2.shape = e.shape) ∨
    setField e key v = .error (.decodeMismatch key) := by
  cases hk : equalFold key "kind" with
  | true =>
    cases v with
    | str s => exact .inl ⟨{ e with kind := s }, by simp [setField, hk], rfl⟩
    | num n => right; simp [setField, hk]
    | boolean b => right; simp [setField, hk]
  | false =>
    cases hn : equalFold key "name" with
    | true =>
      cases v with
      | str s => exact .inl ⟨{ e with name := s }, by simp [setField, hk, hn], rfl⟩
      | num n => right; simp [setField, hk, hn]
      | boolean b => right; simp [setField, hk, hn]
    | false =>
      rcases setFields_cases e.fields key v with ⟨fs2, hf, hsh⟩ | hf
      · exact .inl ⟨{ e with fields := fs2 }, by simp [setField, hk, hn, hf],
          by simp [TypedEntry.shape, hsh]⟩
      · right; simp [setField, hk, hn, hf]

/-- The coercion pass either succeeds preserving the entry shape or fails
with a mismatch error. -/
lemma applyRaw_cases (raw : RawMapping) (e : TypedEntry) :
    (∃ e2, applyRaw e raw = .ok e2 ∧ e2.shape = e.shape) ∨
    (∃ key, applyRaw e raw = .error (.decodeMismatch key)) := by
  induction raw generalizing e with
  | nil => exact .inl ⟨e, rfl, rfl⟩
  | cons p t ih =>
    obtain ⟨k, v⟩ := p
    rcases setField_cases e k v with ⟨e2, hs, hsh⟩ | hs
    · rcases ih e2 with ⟨e3, ha, hsh3⟩ | ⟨key, ha⟩
      · exact .inl ⟨e3, by simp [applyRaw, hs, ha], by rw [hsh3, hsh]⟩
      · exact .inr ⟨key, by simp [applyRaw, hs, ha]⟩
    · exact .inr ⟨k, by simp [applyRaw, hs]⟩

/-- Claim C1 (amended): splitting the path suffix on the first slash
always yields one or two segments — the empty suffix yields the single
segment "" — so Get issues the single-entry fetch on two segments, the
list fetch on one segment (hence the list fetch with empty kind on the
empty suffix), and the BadRequest switch branch is unreachable. -/
theorem c1_get_path_dispatch (p : String) :
    ((splitN2 (pathSuffix p)).length = 1 ∨ (splitN2 (pathSuffix p)).length = 2) ∧
    (∀ k n, splitN2 (pathSuffix p) = [k, n] → configGet p = GetResult.rpcGet k n) ∧
    (∀ k, splitN2 (pathSuffix p) = [k] → configGet p = GetResult.rpcList k) ∧
    (pathSuffix p = "" → configGet p = GetResult.rpcList "") := by
  refine ⟨splitN2_length _, ?_, ?_, ?_⟩
  · intro k n h; simp [configGet, h]
  · intro k h; simp [configGet, h]
  · intro h; simp only [configGet, h]; rfl

/-- Claim C1, counterexample to the claim as stated: the empty path
suffix does not produce BadRequest; it yields one segment and issues the
list RPC with the empty kind. -/
theorem c1_empty_path_counterexample :
    pathSuffix "/v1/config/" = "" ∧
    configGet "/v1/config/" = GetResult.rpcList "" ∧
    configGet "/v1/config/" ≠
      GetResult.badRequest "Must provide either a kind or both kind and name" ∧
    (configGet "/v1/config/").backendCalls = [BackendCall.list ""] := by
  decide

/-- Claim C1, witness: the amended dispatch evaluated on two-segment,
one-segment and empty paths. -/
theorem c1_get_path_dispatch_witness :
    configGet "/v1/config/web/api" = GetResult.rpcGet "web" "api" ∧
    configGet "/v1/config/web" = GetResult.rpcList "web" ∧
    configGet "/v1/config/" = GetResult.rpcList "" :=
  ⟨(c1_get_path_dispatch "/v1/config/web/api").2.1 "web" "api" (by decide),
   (c1_get_path_dispatch "/v1/config/web").2.2.1 "web" (by decide),
   (c1_get_path_dispatch "/v1/config/").2.2.2 (by decide)⟩

/-- Claim C2 (amended): anything but exactly two segments answers
BadRequest with the delete message and issues no backend call; with two
segments the entry is requested from the Kind Registry with that kind and
name, a registered kind issues the delete RPC with the constructed entry,
and an unregistered kind answers BadRequest with the registry error and
issues no backend call. -/
theorem c2_delete_path_dispatch (reg : Registry) (p : String) :
    ((splitN2 (pathSuffix p)).length ≠ 2 →
      configDelete reg p =
        DeleteResult.badRequest "Must provide both a kind and name to delete") ∧
    (∀ k n, splitN2 (pathSuffix p) = [k, n] →
      (∀ e, MakeConfigEntry reg k n = .ok e →
        configDelete reg p = DeleteResult.rpcDelete e) ∧
      (∀ err, MakeConfigEntry reg k n = .error err →
        configDelete reg p = DeleteResult.badRequest err.message ∧
        (configDelete reg p).backendCalls = [])) := by
  constructor
  · intro hlen
    rcases h : splitN2 (pathSuffix p) with _ | ⟨a, t⟩
    · simp [configDelete, h]
    · cases t with
      | nil => simp [configDelete, h]
      | cons b t2 =>
        cases t2 with
        | nil => exact absurd (by rw [h]; rfl) hlen
        | cons c t3 => simp [configDelete, h]
  · intro k n h
    constructor
    · intro e he; simp [configDelete, h, he]
    · intro err he
      refine ⟨by simp [configDelete, h, he], ?_⟩
      simp [configDelete, h, he, DeleteResult.backendCalls]

/-- Claim C2, counterexample to the claim as stated: a two-segment path
whose kind is not registered does not issue the delete RPC; it answers
BadRequest with the registry error and issues no backend call. -/
theorem c2_two_segments_counterexample :
    splitN2 (pathSuffix "/v1/config/web/api") = ["web", "api"] ∧
    configDelete sampleRegistry "/v1/config/web/api" =
      DeleteResult.badRequest (ConfigError.unknownKind "web").message ∧
    (configDelete sampleRegistry "/v1/config/web/api").backendCalls = [] := by
  refine ⟨by decide, by rfl, by rfl⟩

/-- Claim C2, witness: the amended dispatch evaluated on a registered
two-segment path and on a one-segment path. -/
theorem c2_delete_path_dispatch_witness :
    configDelete sampleRegistry "/v1/config/service-defaults/web" =
      DeleteResult.rpcDelete
        { kind := "service-defaults", name := "web",
          fields := [("Protocol", FieldVal.str ""), ("ConnectTimeout", FieldVal.dur 0)] } ∧
    configDelete sampleRegistry "/v1/config/web" =
      DeleteResult.badRequest "Must provide both a kind and name to delete" :=
  ⟨((c2_delete_path_dispatch sampleRegistry "/v1/config/service-defaults/web").2
      "service-defaults" "web" (by decide)).1 _ (by rfl),
   (c2_delete_path_dispatch sampleRegistry "/v1/config/web").1 (by decide)⟩

/-- Claim C3 (amended): the discriminator key `Kind` is tried first and
`kind` only when `Kind` is absent; for a string discriminator naming a
registered kind, decode either succeeds with a typed entry of that kind
shape or fails with a coercion-mismatch error on some key; and a mapping
using only `kind` decodes exactly as the same mapping using `Kind`. -/
theorem c3_decode_registered_kind (reg : Registry) :
    (∀ raw v, lookupVal raw "Kind" = some v → kindDiscriminator raw = some v) ∧
    (∀ raw, lookupVal raw "Kind" = none →
      kindDiscriminator raw = lookupVal raw "kind") ∧
    (∀ raw k sch, kindDiscriminator raw = some (RawVal.str k) →
      findSchema reg k = some sch →
      (∃ e, decodeConfigEntry reg raw = .ok e ∧ e.shape = sch.fields) ∨
      (∃ key, decodeConfigEntry reg raw = .error (.decodeMismatch key))) ∧
    (∀ pre post v,
      lookupVal (pre ++ post) "Kind" = none →
      lookupVal (pre ++ post) "kind" = none →
      decodeConfigEntry reg (pre ++ ("kind", v) :: post) =
        decodeConfigEntry reg (pre ++ ("Kind", v) :: post)) := by
  refine ⟨?_, ?_, ?_, ?_⟩
  · intro raw v h; simp [kindDiscriminator, h]
  · intro raw h; simp [kindDiscriminator, h]
  · intro raw k sch h1 h2
    have hm : MakeConfigEntry reg k "" =
        .ok ⟨k, "", sch.fields.map (fun ft => (ft.1, zeroVal ft.2))⟩ := by
      simp [MakeConfigEntry, h2]
    rcases applyRaw_cases raw ⟨k, "", sch.fields.map (fun ft => (ft.1, zeroVal ft.2))⟩
      with ⟨e2, ha, hsh⟩ | ⟨key, ha⟩
    · refine .inl ⟨e2, by simp [decodeConfigEntry, h1, hm, ha], ?_⟩
      rw [hsh]; exact shape_mk_zero k "" sch.fields
    · exact .inr ⟨key, by simp [decodeConfigEntry, h1, hm, ha]⟩
  · intro pre post v hK hk
    obtain ⟨hKpre, hKpost⟩ := lookupVal_append_none hK
    obtain ⟨hkpre, hkpost⟩ := lookupVal_append_none hk
    have hKk : ("kind" == "Kind") = false := by decide
    have hkk : ("kind" == "kind") = true := by decide
    have hKK : ("Kind" == "Kind") = true := by decide
    have d1 : kindDiscriminator (pre ++ ("kind", v) :: post) = some v := by
      have a1 : lookupVal (pre ++ ("kind", v) :: post) "Kind" = none := by
        rw [lookupVal_append_left_none hKpre]
        simp [lookupVal, hKk, hKpost]
      have a2 : lookupVal (pre ++ ("kind", v) :: post) "kind" = some v := by
        rw [lookupVal_append_left_none hkpre]
        simp [lookupVal, hkk]
      simp [kindDiscriminator, a1, a2]
    have d2 : kindDiscriminator (pre ++ ("Kind", v) :: post) = some v := by
      have a1 : lookupVal (pre ++ ("Kind", v) :: post) "Kind" = some v := by
        rw [lookupVal_append_left_none hKpre]
        simp [lookupVal, hKK]
      simp [kindDiscriminator, a1]
    cases v with
    | num n => simp [decodeConfigEntry, d1, d2]
    | boolean b => simp [decodeConfigEntry, d1, d2]
    | str k =>
      simp only [decodeConfigEntry, d1, d2]
      cases hm : MakeConfigEntry reg k "" with
      | error err => rfl
      | ok e0 =>
        show applyRaw e0 (pre ++ ("kind", RawVal.str k) :: post) =
          applyRaw e0 (pre ++ ("Kind", RawVal.str k) :: post)
        rw [applyRaw_append, applyRaw_append]
        cases applyRaw e0 pre with
        | error err => rfl
        | ok e2 =>
          show applyRaw e2 (("kind", RawVal.str k) :: post) =
            applyRaw e2 (("Kind", RawVal.str k) :: post)
          have h1 : setField e2 "kind" (RawVal.str k) = .ok { e2 with kind := k } := by
            simp [setField, show equalFold "kind" "kind" = true from by decide]
          have h2 : setField e2 "Kind" (RawVal.str k) = .ok { e2 with kind := k } := by
            simp [setField, show equalFold "Kind" "kind" = true from by decide]
          simp [applyRaw, h1, h2]

/-- Claim C3, counterexample to the claim as stated: a mapping with a
registered string kind whose `Protocol` value is numeric does not decode
successfully; the coercion fails with a mismatch on that key. -/
theorem c3_decode_mismatch_counterexample :
    kindDiscriminator
        [("Kind", RawVal.str "service-defaults"), ("Protocol", RawVal.num 5)] =
      some (RawVal.str "service-defaults") ∧
    (findSchema sampleRegistry "service-defaults").isSome = true ∧
    decodeConfigEntry sampleRegistry
        [("Kind", RawVal.str "service-defaults"), ("Protocol", RawVal.num 5)] =
      .error (.decodeMismatch "Protocol") := by
  refine ⟨by decide, by decide, by rfl⟩

/-- Claim C3, witness: the amended decode evaluated at a mapping using
the lower-case discriminator, and the discriminator-renaming equivalence
at a concrete mapping. -/
theorem c3_decode_registered_kind_witness :
    ((∃ e, decodeConfigEntry sampleRegistry
        [("kind", RawVal.str "proxy-defaults"), ("Mode", RawVal.str "direct")] =
        .ok e ∧ e.shape = [("Mode", FieldType.str)]) ∨
     (∃ key, decodeConfigEntry sampleRegistry
        [("kind", RawVal.str "proxy-defaults"), ("Mode", RawVal.str "direct")] =
        .error (.decodeMismatch key))) ∧
    decodeConfigEntry sampleRegistry [("kind", RawVal.str "proxy-defaults")] =
      decodeConfigEntry sampleRegistry [("Kind", RawVal.str "proxy-defaults")] :=
  ⟨(c3_decode_registered_kind sampleRegistry).2.2.1
      [("kind", RawVal.str "proxy-defaults"), ("Mode", RawVal.str "direct")]
      "proxy-defaults" ⟨"proxy-defaults", [("Mode", FieldType.str)]⟩ (by rfl) (by rfl),
   (c3_decode_registered_kind sampleRegistry).2.2.2 [] []
      (RawVal.str "proxy-defaults") (by rfl) (by rfl)⟩

/-- Claim C4: a mapping lacking both discriminator keys fails with the
missing-kind error, and a present non-string discriminator fails with the
invalid-kind-type error; decode is a total function, so no input panics. -/
theorem c4_decode_missing_or_nonstring (reg : Registry) (raw : RawMapping) :
    (kindDiscriminator raw = none →
      decodeConfigEntry reg raw = .error .missingKind) ∧
    (∀ v, kindDiscriminator raw = some v → (∀ s, v ≠ RawVal.str s) →
      decodeConfigEntry reg raw = .error .invalidKindType) := by
  constructor
  · intro h; simp [decodeConfigEntry, h]
  · intro v hv hns
    cases v with
    | str s => exact absurd rfl (hns s)
    | num n => simp [decodeConfigEntry, hv]
    | boolean b => simp [decodeConfigEntry, hv]

/-- Claim C4, witness: the missing-kind and invalid-kind-type errors
evaluated at concrete mappings. -/
theorem c4_decode_missing_or_nonstring_witness :
    decodeConfigEntry sampleRegistry [("Name", RawVal.str "x")] =
      .error .missingKind ∧
    decodeConfigEntry sampleRegistry [("Kind", RawVal.num 3)] =
      .error .invalidKindType :=
  ⟨(c4_decode_missing_or_nonstring sampleRegistry [("Name", RawVal.str "x")]).1 (by rfl),
   (c4_decode_missing_or_nonstring sampleRegistry [("Kind", RawVal.num 3)]).2
     (RawVal.num 3) (by rfl) (fun s h => RawVal.noConfusion h)⟩

/-- Claim C5: a string discriminator naming no registered kind makes
decode fail with the unknown-kind error of the Kind Registry, and Apply
surfaces it as BadRequest wrapping the decode error. -/
theorem c5_unknown_kind_bad_request (reg : Registry) (raw : RawMapping) (k : String)
    (h1 : kindDiscriminator raw = some (RawVal.str k))
    (h2 : findSchema reg k = none) :
    decodeConfigEntry reg raw = .error (.unknownKind k) ∧
    ConfigApply reg (.ok raw) =
      .badRequest ("Request decoding failed: " ++ (ConfigError.unknownKind k).message) := by
  have hd : decodeConfigEntry reg raw = .error (.unknownKind k) := by
    simp [decodeConfigEntry, h1, MakeConfigEntry, h2]
  exact ⟨hd, by simp [ConfigApply, hd]⟩

/-- Claim C5, witness: the unknown-kind failure and its BadRequest
wrapping evaluated at a concrete mapping. -/
theorem c5_unknown_kind_bad_request_witness :
    decodeConfigEntry sampleRegistry [("Kind", RawVal.str "web")] =
      .error (.unknownKind "web") ∧
    ConfigApply sampleRegistry (.ok [("Kind", RawVal.str "web")]) =
      .badRequest ("Request decoding failed: " ++ (ConfigError.unknownKind "web").message) :=
  c5_unknown_kind_bad_request sampleRegistry [("Kind", RawVal.str "web")] "web"
    (by rfl) (by rfl)

/-- Claim C6: the method switch routes GET to the Get handler and DELETE
to the Delete handler, and any other verb answers MethodNotAllowed
listing exactly GET and DELETE with no other action. -/
theorem c6_method_dispatch (reg : Registry) (p : String) :
    Config reg "GET" p = ConfigResult.getRes (configGet p) ∧
    Config reg "DELETE" p = ConfigResult.deleteRes (configDelete reg p) ∧
    (∀ m, m ≠ "GET" → m ≠ "DELETE" →
      Config reg m p = ConfigResult.methodNotAllowed m ["GET", "DELETE"]) := by
  refine ⟨rfl, rfl, ?_⟩
  intro m h1 h2
  simp [Config, h1, h2]

/-- Claim C6, witness: the PUT verb answers MethodNotAllowed with the
allowed list GET, DELETE. -/
theorem c6_method_dispatch_witness :
    Config sampleRegistry "PUT" "/v1/config/web" =
      ConfigResult.methodNotAllowed "PUT" ["GET", "DELETE"] :=
  (c6_method_dispatch sampleRegistry "/v1/config/web").2.2 "PUT"
    (by decide) (by decide)

/-- Claim C7: a duration field takes a numeric raw value verbatim as
nanoseconds and a string raw value through the duration grammar; the
string "1h" decodes to 3600 seconds in nanoseconds and the numeric
5000000000 decodes to 5 seconds in nanoseconds, also through the full
decode pipeline. -/
theorem c7_duration_fields :
    (∀ (key : String) (d n : Int),
      coerceInto key (FieldVal.dur d) (RawVal.num n) = .ok (FieldVal.dur n)) ∧
    (∀ (key : String) (d : Int) (s : String) (ns : Int), parseDuration s = some ns →
      coerceInto key (FieldVal.dur d) (RawVal.str s) = .ok (FieldVal.dur ns)) ∧
    parseDuration "1h" = some 3600000000000 ∧
    decodeConfigEntry sampleRegistry
        [("Kind", RawVal.str "service-defaults"), ("ConnectTimeout", RawVal.str "1h")] =
      .ok { kind := "service-defaults", name := "",
            fields := [("Protocol", FieldVal.str ""),
                       ("ConnectTimeout", FieldVal.dur 3600000000000)] } ∧
    decodeConfigEntry sampleRegistry
        [("Kind", RawVal.str "service-defaults"), ("ConnectTimeout", RawVal.num 5000000000)] =
      .ok { kind := "service-defaults", name := "",
            fields := [("Protocol", FieldVal.str ""),
                       ("ConnectTimeout", FieldVal.dur 5000000000)] } := by
  refine ⟨fun key d n => rfl, fun key d s ns h => by simp [coerceInto, h],
    by decide, by rfl, by rfl⟩

/-- Claim C7, witness: the string coercion rule applied at the string
"1h" on a duration field. -/
theorem c7_duration_fields_witness :
    coerceInto "ConnectTimeout" (FieldVal.dur 0) (RawVal.str "1h") =
      .ok (FieldVal.dur 3600000000000) :=
  c7_duration_fields.2.1 "ConnectTimeout" 0 "1h" 3600000000000 (by decide)

/-- Claim C8: a BadRequest outcome of Apply, Get or Delete issues no
backend call, and an Apply outcome that does issue the RPC carries
exactly the fully decoded typed entry of the request body — either the
full entry is sent or nothing is. -/
theorem c8_no_backend_on_malformed (reg : Registry)
    (body : Except ConfigError RawMapping) (p : String) :
    (∀ msg, ConfigApply reg body = ApplyResult.badRequest msg →
      (ConfigApply reg body).backendCalls = []) ∧
    (∀ e, ConfigApply reg body = ApplyResult.rpcApply e →
      ∃ raw, body = .ok raw ∧ decodeConfigEntry reg raw = .ok e) ∧
    (∀ msg, configGet p = GetResult.badRequest msg →
      (configGet p).backendCalls = []) ∧
    (∀ msg, configDelete reg p = DeleteResult.badRequest msg →
      (configDelete reg p).backendCalls = []) := by
  refine ⟨?_, ?_, ?_, ?_⟩
  · intro msg h; rw [h]; rfl
  · intro e h
    cases body with
    | error err => simp [ConfigApply] at h
    | ok raw =>
      cases hd : decodeConfigEntry reg raw with
      | ok ent =>
        refine ⟨raw, rfl, ?_⟩
        simp only [ConfigApply, hd] at h
        rw [hd]
        exact congrArg Except.ok (ApplyResult.rpcApply.inj h)
      | error err => simp [ConfigApply, hd] at h
  · intro msg h; rw [h]; rfl
  · intro msg h; rw [h]; rfl

/-- Claim C8, witness: a failed body decode and a one-segment delete path
issue no backend call. -/
theorem c8_no_backend_on_malformed_witness :
    (ConfigApply sampleRegistry (.error .eof)).backendCalls = [] ∧
    (configDelete sampleRegistry "/v1/config/web").backendCalls = [] :=
  ⟨(c8_no_backend_on_malformed sampleRegistry (.error .eof) "/v1/config/web").1
     ("Request decoding failed: " ++ ConfigError.eof.message) (by rfl),
   (c8_no_backend_on_malformed sampleRegistry (.error .eof) "/v1/config/web").2.2.2
     "Must provide both a kind and name to delete" (by rfl)⟩

/-- Claim C9: decode is a deterministic function of the raw mapping, so
decoding the same mapping twice yields equal outcomes, successes and
errors alike. -/
theorem c9_decode_deterministic (reg : Registry) (raw : RawMapping) :
    decodeConfigEntry reg raw = decodeConfigEntry reg raw := rfl

/-- Claim C10: the body-based decoder agrees with the mapping-based
decoder on every body whose JSON content yields a raw mapping, and a nil
body yields the EOF error, the same outcome as an empty reader. -/
theorem c10_body_decoder_equivalence (reg : Registry) :
    (∀ raw, decodeConfigBody reg (some (.ok raw)) = decodeConfigEntry reg raw) ∧
    decodeConfigBody reg none = .error .eof ∧
    decodeConfigBody reg none = decodeConfigBody reg emptyReaderBody :=
  ⟨fun _ => rfl, rfl, rfl⟩

end ConfigEndpoint
